import Mathlib

/-!
Verification of the photo-migrator Upload Orchestration Core.

This file gives a shallow embedding of the parts of the repository that the
verified properties talk about:

* `src/src/utils/database.ts` (`DatabaseManager`): the SQLite-backed Item
  Store, modelled as a pure state-passing function layer over a `Db` value
  holding the `media_items` and `batches` tables.
* `src/unnamed/part_006` (`Uploader`): the two-phase upload pipeline with its
  `async-retry` retry loops, modelled with the per-attempt network outcomes
  supplied by an explicit environment.
* `src/unnamed/part_008` (`AuthManager`): the credential coordinator,
  modelled as a state machine over in-memory tokens, client credentials and
  the on-disk token file.
* the scanner-driven insertion flow of `MediaScanner.addItemsToDatabase`.

JavaScript truthiness coercions that the source applies to bound SQL
parameters (`x || null`) are modelled explicitly (`jsStrOrNull`,
`jsNatOrNull`), since an empty string and the number 0 are falsy.
-/

set_option maxRecDepth 4000

namespace PhotoMigrator

/-- Media status values, from the CHECK constraint of `media_items` and the
`MediaStatus` union type in `src/src/utils/database.ts`. -/
inductive MediaStatus where
  | pending
  | exported
  | uploaded
  | failed
  | skipped
  | skippedIcloud
deriving DecidableEq, Repr

/-- Media type values from the `MediaType` union in `database.ts`. -/
inductive MediaType where
  | photo
  | video
deriving DecidableEq, Repr

/-- One row of the `media_items` table, mirroring the `MediaItem` interface
of `database.ts` column for column.  The REAL columns `duration_seconds` and
`frame_rate` are modelled as naturals; no verified property computes on
them. -/
structure MediaRow where
  id : String
  media_type : MediaType
  mime_type : String
  original_path : String
  local_copy_path : Option String
  original_name : String
  size_bytes : Option Nat
  creation_date : Option String
  sha256_hash : Option String
  visual_hash : Option String
  pixel_size : Option String
  duration_seconds : Option Nat
  frame_rate : Option Nat
  codec : Option String
  status : MediaStatus
  retry_count : Nat
  last_attempt_at : Option String
  google_photos_id : Option String
  error_message : Option String
  is_in_icloud : Bool
deriving DecidableEq, Repr

/-- Batch status values from the `batches` CHECK constraint. -/
inductive BatchStatus where
  | planned
  | uploading
  | complete
  | failed
deriving DecidableEq, Repr

/-- One row of the `batches` table (`Batch` interface in `database.ts`). -/
structure BatchRow where
  id : String
  created_at : String
  status : BatchStatus
  total_size : Nat
  files_count : Nat
deriving DecidableEq, Repr

/-- The database state handled by `DatabaseManager`: the `media_items` and
`batches` tables (the `settings` table is untouched by the verified
operations). -/
structure Db where
  media_items : List MediaRow
  batches : List BatchRow
deriving DecidableEq, Repr

/-- The empty database produced by `DatabaseManager.initialize` on a fresh
file. -/
def emptyDb : Db := ⟨[], []⟩

/-- JavaScript `s || null` on a nullable string bind parameter: both absent
values and the empty string (falsy) are stored as NULL. -/
def jsStrOrNull : Option String → Option String
  | none => none
  | some s => if s = "" then none else some s

/-- JavaScript `n || null` on a nullable numeric bind parameter: both absent
values and 0 (falsy) are stored as NULL. -/
def jsNatOrNull : Option Nat → Option Nat
  | none => none
  | some n => if n = 0 then none else some n

/-- Whether `pat` occurs as a contiguous subsequence of the character
list. -/
def containsSeq (pat : List Char) : List Char → Bool
  | [] => pat.isEmpty
  | a :: as => pat.isPrefixOf (a :: as) || containsSeq pat as

/-- JavaScript `String.prototype.includes`, used by `createMediaItem` on the
per-item API status message. -/
def jsIncludes (s pat : String) : Bool := containsSeq pat.data s.data

/-- JavaScript `String.prototype.startsWith`, used by `uploadMediaItem` on
the resolved file path. -/
def strStartsWith (s pre : String) : Bool := pre.data.isPrefixOf s.data

/-- The row transformation of `DatabaseManager.updateMediaStatus`:
`SET status = ?, last_attempt_at = ?, error_message = ?`, with the
`errorMessage || null` coercion on the third bind parameter. -/
def setStatusRow (status : MediaStatus) (now : String) (errorMessage : Option String)
    (r : MediaRow) : MediaRow :=
  { r with
    status := status
    last_attempt_at := some now
    error_message := jsStrOrNull errorMessage }

/-- `DatabaseManager.updateMediaStatus` (database.ts lines 267-294): runs
`UPDATE media_items SET status = ?, last_attempt_at = ?, error_message = ?
WHERE id = ?` and returns false when `result.changes === 0` (no row with the
id), true otherwise.  `now` stands for `new Date().toISOString()`. -/
def updateMediaStatus (db : Db) (id : String) (status : MediaStatus)
    (errorMessage : Option String) (now : String) : Bool × Db :=
  let db2 : Db :=
    { db with
      media_items := db.media_items.map fun r =>
        if r.id = id then setStatusRow status now errorMessage r else r }
  if db.media_items.any (fun r => r.id = id) then (true, db2) else (false, db2)

/-- `DatabaseManager.updateGooglePhotosId` (database.ts lines 299-321): runs
`UPDATE media_items SET google_photos_id = ? WHERE id = ?`, returning false
when no row matched. -/
def updateGooglePhotosId (db : Db) (id : String) (googlePhotosId : String) : Bool × Db :=
  let db2 : Db :=
    { db with
      media_items := db.media_items.map fun r =>
        if r.id = id then { r with google_photos_id := some googlePhotosId } else r }
  if db.media_items.any (fun r => r.id = id) then (true, db2) else (false, db2)

/-- The insert payload `Omit<MediaItem, 'retry_count'>` accepted by
`addMediaItem` and `addMediaBatch`. -/
structure NewMediaItem where
  id : String
  media_type : MediaType
  mime_type : String
  original_path : String
  local_copy_path : Option String
  original_name : String
  size_bytes : Option Nat
  creation_date : Option String
  sha256_hash : Option String
  visual_hash : Option String
  pixel_size : Option String
  duration_seconds : Option Nat
  frame_rate : Option Nat
  codec : Option String
  status : MediaStatus
  last_attempt_at : Option String
  google_photos_id : Option String
  error_message : Option String
  is_in_icloud : Bool
deriving DecidableEq, Repr

/-- The row stored by the shared INSERT statement of `addMediaItem` and
`addMediaBatch`, applying the `|| null` coercion the source puts on each
nullable bind parameter, `retry_count` 0, and
`is_in_icloud === true ? 1 : 0`. -/
def insertedRow (m : NewMediaItem) : MediaRow :=
  { id := m.id
    media_type := m.media_type
    mime_type := m.mime_type
    original_path := m.original_path
    local_copy_path := jsStrOrNull m.local_copy_path
    original_name := m.original_name
    size_bytes := jsNatOrNull m.size_bytes
    creation_date := jsStrOrNull m.creation_date
    sha256_hash := jsStrOrNull m.sha256_hash
    visual_hash := jsStrOrNull m.visual_hash
    pixel_size := jsStrOrNull m.pixel_size
    duration_seconds := jsNatOrNull m.duration_seconds
    frame_rate := jsNatOrNull m.frame_rate
    codec := jsStrOrNull m.codec
    status := m.status
    retry_count := 0
    last_attempt_at := jsStrOrNull m.last_attempt_at
    google_photos_id := jsStrOrNull m.google_photos_id
    error_message := jsStrOrNull m.error_message
    is_in_icloud := m.is_in_icloud }

/-- One `INSERT INTO media_items` with the `id TEXT PRIMARY KEY` constraint:
inserting an id that is already present throws a UNIQUE constraint error. -/
def insertMediaRow (db : Db) (m : NewMediaItem) : Except String Db :=
  if db.media_items.any (fun r => r.id = m.id) then
    .error "UNIQUE constraint failed: media_items.id"
  else
    .ok { db with media_items := db.media_items ++ [insertedRow m] }

/-- `DatabaseManager.addMediaItem` (database.ts lines 163-202): a single
insert, rethrowing any database error. -/
def addMediaItem (db : Db) (m : NewMediaItem) : Except String (String × Db) :=
  (insertMediaRow db m).map fun db2 => (m.id, db2)

/-- The loop body of the `better-sqlite3` transaction inside
`addMediaBatch`: insert each item in order, pushing its id, stopping at the
first error. -/
def addMediaBatchGo : Db → List String → List NewMediaItem → Except String (List String × Db)
  | db, ids, [] => .ok (ids, db)
  | db, ids, m :: rest =>
    match insertMediaRow db m with
    | .error e => .error e
    | .ok db2 => addMediaBatchGo db2 (ids ++ [m.id]) rest

/-- `DatabaseManager.addMediaBatch` (database.ts lines 207-262): all inserts
run inside one transaction; a throw from any insert rolls the whole
transaction back, leaving the database as it was, and the error is
rethrown.  An empty input returns immediately. -/
def addMediaBatch (db : Db) (mediaItems : List NewMediaItem) :
    Except String (List String) × Db :=
  if mediaItems = [] then (.ok [], db)
  else
    match addMediaBatchGo db [] mediaItems with
    | .ok (ids, db2) => (.ok ids, db2)
    | .error e => (.error e, db)

/-- `DatabaseManager.getMediaByStatus`: `SELECT * FROM media_items WHERE
status = ? LIMIT ?`. -/
def getMediaByStatus (db : Db) (status : MediaStatus) (limit : Nat) : List MediaRow :=
  (db.media_items.filter fun r => r.status = status).take limit

/-- `DatabaseManager.getPendingMedia`. -/
def getPendingMedia (db : Db) (limit : Nat) : List MediaRow :=
  getMediaByStatus db .pending limit

/-- `DatabaseManager.getMediaByHash`: `SELECT * FROM media_items WHERE
sha256_hash = ? LIMIT 1` (a NULL hash never matches). -/
def getMediaByHash (db : Db) (hash : String) : Option MediaRow :=
  db.media_items.find? fun r => r.sha256_hash = some hash

/-- `DatabaseManager.getMediaById`: `SELECT * FROM media_items WHERE id = ?
LIMIT 1`. -/
def getMediaById (db : Db) (id : String) : Option MediaRow :=
  db.media_items.find? fun r => r.id = id

/-- `DatabaseManager.updateLocalCopyPath` (database.ts lines 326-348):
`UPDATE media_items SET local_copy_path = ? WHERE id = ?`, returning false
when no row matched.  The export flow records the staged copy through it. -/
def updateLocalCopyPath (db : Db) (id : String) (localCopyPath : String) : Bool × Db :=
  let db2 : Db :=
    { db with
      media_items := db.media_items.map fun r =>
        if r.id = id then { r with local_copy_path := some localCopyPath } else r }
  if db.media_items.any (fun r => r.id = id) then (true, db2) else (false, db2)

/-- The insert payload `Omit<Batch, 'created_at'>` accepted by `addBatch`. -/
structure NewBatch where
  id : String
  status : BatchStatus
  total_size : Nat
  files_count : Nat
deriving DecidableEq, Repr

/-- `DatabaseManager.addBatch` (database.ts lines 561-584): `INSERT INTO
batches` with `created_at = new Date().toISOString()` and the `id TEXT
PRIMARY KEY` constraint. -/
def addBatch (db : Db) (b : NewBatch) (now : String) : Except String (String × Db) :=
  if db.batches.any (fun x => x.id = b.id) then
    .error "UNIQUE constraint failed: batches.id"
  else
    .ok (b.id,
      { db with
        batches := db.batches ++
          [{ id := b.id, created_at := now, status := b.status,
             total_size := b.total_size, files_count := b.files_count }] })

/-! ### Batch Planner

Modelled from the spec: the Batch Planner of spec section 4.3 is declared in
the project task list (Tasks 2.1.1-2.1.6, all unchecked) but is not
implemented anywhere in the repository; only the `batches` bookkeeping
(`DatabaseManager.addBatch`) exists.  The definitions below follow the words
of the spec: walk pending items ordered by priority class (photos before
videos) then ascending size, adding each item while
`accumulator + item.size ≤ min(ceiling, freeSpace − safetyMargin)`. -/

/-- Modelled from the spec: the planner ordering key, priority class first
(photos before videos), then ascending size. -/
def planKey (r : MediaRow) : Nat × Nat :=
  (if r.media_type = .photo then 0 else 1, r.size_bytes.getD 0)

/-- Modelled from the spec: comparison on planner keys (priority class, then
ascending size). -/
def planLe (a b : MediaRow) : Bool :=
  (planKey a).1 < (planKey b).1 ∨
    ((planKey a).1 = (planKey b).1 ∧ (planKey a).2 ≤ (planKey b).2)

/-- Insertion step of the planner ordering. -/
def insertPlanned (r : MediaRow) : List MediaRow → List MediaRow
  | [] => [r]
  | x :: xs => if planLe r x then r :: x :: xs else x :: insertPlanned r xs

/-- Modelled from the spec: sort the pending set in planner order. -/
def sortPlanned : List MediaRow → List MediaRow
  | [] => []
  | x :: xs => insertPlanned x (sortPlanned xs)

/-- Modelled from the spec: the disk bound
`min(ceiling, freeSpace − safetyMargin)` (natural subtraction: when the
safety margin exceeds free space the bound is 0 and the batch is empty). -/
def diskBound (ceiling freeSpace safetyMargin : Nat) : Nat :=
  min ceiling (freeSpace - safetyMargin)

/-- Modelled from the spec: the greedy accumulator walk, keeping an item when
`accumulator + item.size` stays within the bound and otherwise skipping it. -/
def planBatchGo (bound : Nat) : Nat → List MediaRow → List MediaRow
  | _, [] => []
  | acc, r :: rest =>
    let sz := r.size_bytes.getD 0
    if acc + sz ≤ bound then r :: planBatchGo bound (acc + sz) rest
    else planBatchGo bound acc rest

/-- Modelled from the spec: the Batch Planner, producing the ordered item
list of the next batch from the free-space estimate, the configured ceiling,
the safety margin, and the pending item set. -/
def planBatch (ceiling freeSpace safetyMargin : Nat) (pending : List MediaRow) :
    List MediaRow :=
  planBatchGo (diskBound ceiling freeSpace safetyMargin) 0 (sortPlanned pending)

/-- Total bytes of a list of items (NULL sizes count as 0). -/
def batchTotalBytes (items : List MediaRow) : Nat :=
  (items.map fun r => r.size_bytes.getD 0).sum

/-! ### Retry backoff

The `Uploader` drives both network phases through the `async-retry`
dependency.  `async-retry` defaults its `randomize` option to true when the
caller does not set it — and the source sets only `retries`, `factor`,
`minTimeout` and `maxTimeout` — so each delay computed by the underlying
`retry` package is `min(round(random * max(minTimeout, 1) * factor ^ n),
maxTimeout)` with `random = Math.random() + 1` drawn from [1, 2) anew for
every attempt.  `retryDelay` is the jitter-free base curve of that formula
(the value the jitter multiplies before rounding and capping, and the delay
a `randomize: false` configuration would produce); `retryDelayRandomized`
is the program's delay with the jitter stream made explicit, the draws
abstracted as rationals in [1, 2). -/

/-- A retry configuration object as passed to `async-retry`. -/
structure RetryConfig where
  retries : Nat
  factor : Nat
  minTimeout : Nat
  maxTimeout : Nat
deriving DecidableEq, Repr

/-- The jitter-free base curve of the `retry` backoff formula under a
configuration: `min(max(minTimeout, 1) * factor ^ n, maxTimeout)`. -/
def retryDelay (cfg : RetryConfig) (n : Nat) : Nat :=
  min (max cfg.minTimeout 1 * cfg.factor ^ n) cfg.maxTimeout

/-- The delay before the n-th automatic retry as the program computes it,
with `async-retry`'s defaulted `randomize: true`: the n-th jitter draw
(`Math.random() + 1`, a value in [1, 2), abstracted as a rational)
multiplies the base curve before rounding and capping. -/
def retryDelayRandomized (cfg : RetryConfig) (jitter : Nat → ℚ) (n : Nat) : ℤ :=
  min (round (jitter n * ((max cfg.minTimeout 1 * cfg.factor ^ n : Nat) : ℚ)))
    (cfg.maxTimeout : ℤ)

/-- The configuration object passed to `retry` by `Uploader.uploadFileBytes`
(part_006 lines 215-225): 5 retries, factor 2, 1 second minimum, 1 minute
cap. -/
def byteUploadRetryConfig : RetryConfig :=
  { retries := 5, factor := 2, minTimeout := 1000, maxTimeout := 60000 }

/-- The configuration object passed to `retry` by `Uploader.createMediaItem`
(part_006 lines 351-359): 3 retries, factor 2, 1 second minimum, 30 second
cap. -/
def createMediaItemRetryConfig : RetryConfig :=
  { retries := 3, factor := 2, minTimeout := 1000, maxTimeout := 30000 }

/-! ### Uploader (part_006)

Each network attempt is abstracted by the outcome the transport would
deliver; the per-attempt classification (retry, bail, accept) is translated
from the catch blocks of `uploadFileBytes` and `createMediaItem`. -/

/-- The outcome of one axios attempt of the byte-upload phase. -/
inductive HttpAttempt where
  | ok (body : String)
  | httpError (status : Nat)
  | timeoutError
  | networkError
  | nonAxiosError
deriving DecidableEq, Repr

/-- What the retry loop does with one failed or succeeded attempt. -/
inductive RetryDecision where
  | accept
  | retryAttempt
  | bail
deriving DecidableEq, Repr

/-- The classification the catch block of `Uploader.uploadFileBytes`
(part_006 lines 173-214) applies to one attempt: 401 bails, 429 and 5xx
retry, other HTTP statuses bail, timeouts and status-less network errors
retry, non-axios errors bail. -/
def classifyByteAttempt : HttpAttempt → RetryDecision
  | .ok _ => .accept
  | .httpError status =>
    if status = 401 then .bail
    else if status = 429 then .retryAttempt
    else if 500 ≤ status ∧ status < 600 then .retryAttempt
    else .bail
  | .timeoutError => .retryAttempt
  | .networkError => .retryAttempt
  | .nonAxiosError => .bail

/-- Result of the byte-upload phase: the opaque upload token, or the thrown
error after a bail or exhausted retries. -/
inductive ByteUploadResult where
  | token (t : String)
  | failed (msg : String)
deriving DecidableEq, Repr

/-- The `async-retry` loop of `uploadFileBytes`: consume one attempt outcome
per try; a retriable failure recurses while retries remain.  Returns the
result together with the number of attempts performed. -/
def runByteAttempts : Nat → List HttpAttempt → ByteUploadResult × Nat
  | _, [] => (.failed "no response from transport", 0)
  | retriesLeft, a :: rest =>
    match classifyByteAttempt a with
    | .accept =>
      match a with
      | .ok body =>
        if body = "" then (.failed "Upload bytes failed with unexpected status", 1)
        else (.token body, 1)
      | _ => (.failed "Upload bytes failed with unexpected status", 1)
    | .bail => (.failed "bailed during byte upload", 1)
    | .retryAttempt =>
      if retriesLeft = 0 then (.failed "retries exhausted during byte upload", 1)
      else
        let r := runByteAttempts (retriesLeft - 1) rest
        (r.1, r.2 + 1)

/-- `Uploader.uploadFileBytes` (part_006 lines 118-226): an empty file bails
before any HTTP call; otherwise the retry loop runs with the 5-retry
configuration. -/
def uploadFileBytes (fileSize : Nat) (attempts : List HttpAttempt) :
    ByteUploadResult × Nat :=
  if fileSize = 0 then (.failed "File size is 0, cannot upload empty file.", 0)
  else runByteAttempts byteUploadRetryConfig.retries attempts

/-- The structured per-item result inside a 200 response of
`mediaItems:batchCreate`. -/
structure ApiItemResult where
  tokenMatches : Bool
  statusCode : Option Int
  statusMessage : String
  mediaItemId : Option String
deriving DecidableEq, Repr

/-- The outcome of one axios attempt of the media-item-creation phase. -/
inductive CreateAttempt where
  | okResult (r : ApiItemResult)
  | emptyResults
  | httpError (status : Nat)
  | timeoutError
  | networkError
  | nonAxiosError
deriving DecidableEq, Repr

/-- The value `createMediaItem` resolves with. -/
structure CreateResult where
  success : Bool
  mediaItemId : Option String
deriving DecidableEq, Repr

/-- What one attempt of `createMediaItem` does to its retry loop.  A `bail`
issued from the try block is followed by a `return`, so the attempt
completes and the loop stops; a `bail` issued from the catch block falls
through to the final `throw error` (part_006 line 349), so the promise
settles with the failure while `async-retry` still schedules the remaining
backoff retries; a plain `throw` just retries. -/
inductive CreateStep where
  | stopWith (r : CreateResult)
  | settleThenRetry (r : CreateResult)
  | retryStep
deriving DecidableEq, Repr

/-- The per-attempt logic of `Uploader.createMediaItem` (part_006 lines
233-350).  A 200 response with a mismatched token bails and returns (loop
stops); an API-level error with a message containing an invalid or expired
upload token returns `success: false` directly; codes 13, 14 and 8 throw to
retry; other API errors bail and return.  The HTTP catch block bails on
401, on other non-retriable statuses and on non-axios errors, but every
catch path then reaches the final `throw error`, so those bails settle the
failure and the loop keeps retrying; 429, 5xx, timeouts and status-less
errors just throw to retry.  Every settled bail or exhausted retry is
mapped to `success: false` by the final catch on the retry promise (lines
360-364). -/
def classifyCreateAttempt : CreateAttempt → CreateStep
  | .okResult r =>
    if ¬ r.tokenMatches then .stopWith { success := false, mediaItemId := none }
    else if r.statusCode ≠ some 0 ∧ r.statusMessage ≠ "OK" then
      if jsIncludes r.statusMessage "Invalid upload token" ∨
          jsIncludes r.statusMessage "Expired upload token" then
        .stopWith { success := false, mediaItemId := none }
      else if r.statusCode = some 13 ∨ r.statusCode = some 14 ∨ r.statusCode = some 8 then
        .retryStep
      else .stopWith { success := false, mediaItemId := none }
    else .stopWith { success := true, mediaItemId := r.mediaItemId }
  | .emptyResults => .stopWith { success := false, mediaItemId := none }
  | .httpError status =>
    if status = 401 then .settleThenRetry { success := false, mediaItemId := none }
    else if status = 429 then .retryStep
    else if 500 ≤ status ∧ status < 600 then .retryStep
    else .settleThenRetry { success := false, mediaItemId := none }
  | .timeoutError => .retryStep
  | .networkError => .retryStep
  | .nonAxiosError => .settleThenRetry { success := false, mediaItemId := none }

/-- The `async-retry` loop of `createMediaItem` with the final catch that
converts any propagated error into `success: false`.  The first settled
value wins (`settled`); attempts made after a catch-path bail still count
(their HTTP calls happen) but cannot change the settled result.  Returns
the result the caller sees and the number of HTTP attempts performed. -/
def runCreateAttempts : Option CreateResult → Nat → List CreateAttempt → CreateResult × Nat
  | settled, _, [] => (settled.getD { success := false, mediaItemId := none }, 0)
  | settled, retriesLeft, a :: rest =>
    match classifyCreateAttempt a with
    | .stopWith r => (settled.getD r, 1)
    | .settleThenRetry r =>
      if retriesLeft = 0 then (settled.getD r, 1)
      else
        let out := runCreateAttempts (some (settled.getD r)) (retriesLeft - 1) rest
        (out.1, out.2 + 1)
    | .retryStep =>
      if retriesLeft = 0 then (settled.getD { success := false, mediaItemId := none }, 1)
      else
        let out := runCreateAttempts settled (retriesLeft - 1) rest
        (out.1, out.2 + 1)

/-- `Uploader.createMediaItem` (part_006 lines 229-365) with its 3-retry
configuration and nothing settled yet. -/
def createMediaItem (attempts : List CreateAttempt) : CreateResult × Nat :=
  runCreateAttempts none createMediaItemRetryConfig.retries attempts

/-- The environment one `uploadMediaItem` call runs against: the token the
`AuthManager` hands back, the filesystem answers for the staged file, the
transport outcomes of both phases, and the wall clock. -/
structure UploadEnv where
  accessToken : Option String
  fileExists : Bool
  fileSize : Nat
  byteAttempts : List HttpAttempt
  createAttempts : List CreateAttempt
  now : String

/-- Call counters observed during one `uploadMediaItem` run. -/
structure UploadStats where
  authRequests : Nat
  byteHttpAttempts : Nat
  createHttpAttempts : Nat
deriving DecidableEq, Repr

/-- The value of one `uploadMediaItem` call: the returned or thrown result,
the observed call counters, and the database afterwards. -/
structure UploadOutcome where
  result : Except String Unit
  stats : UploadStats
  db : Db
deriving Repr

/-- `Uploader.uploadMediaItem` (part_006 lines 62-115), step for step:
obtain the access token (throwing when none is provided); resolve
`item.local_copy_path || item.original_path` and mark the item failed when
the path is empty or still a `urn:` reference, or when the file does not
exist; run the byte phase, propagating its thrown error; run the creation
phase, throwing on `success: false`; on success set the status to
`uploaded` and store the Google Photos id only when the creation result
carried one. -/
def uploadMediaItem (db : Db) (item : MediaRow) (env : UploadEnv) : UploadOutcome :=
  match env.accessToken with
  | none =>
    { result := .error "Failed to obtain access token."
      stats := { authRequests := 1, byteHttpAttempts := 0, createHttpAttempts := 0 }
      db := db }
  | some _ =>
    let filePath :=
      match jsStrOrNull item.local_copy_path with
      | some p => p
      | none => item.original_path
    if filePath = "" ∨ strStartsWith filePath "urn:" then
      { result := .ok ()
        stats := { authRequests := 1, byteHttpAttempts := 0, createHttpAttempts := 0 }
        db := (updateMediaStatus db item.id .failed
          (some "No local file path available for upload") env.now).2 }
    else if ¬ env.fileExists then
      { result := .ok ()
        stats := { authRequests := 1, byteHttpAttempts := 0, createHttpAttempts := 0 }
        db := (updateMediaStatus db item.id .failed
          (some ("File not found at expected path: " ++ filePath)) env.now).2 }
    else
      let bu := uploadFileBytes env.fileSize env.byteAttempts
      match bu.1 with
      | .failed msg =>
        { result := .error msg
          stats := { authRequests := 1, byteHttpAttempts := bu.2, createHttpAttempts := 0 }
          db := db }
      | .token _ =>
        let cr := createMediaItem env.createAttempts
        if cr.1.success then
          let db1 := (updateMediaStatus db item.id .uploaded none env.now).2
          let db2 :=
            match cr.1.mediaItemId with
            | some gid => (updateGooglePhotosId db1 item.id gid).2
            | none => db1
          { result := .ok ()
            stats := { authRequests := 1, byteHttpAttempts := bu.2, createHttpAttempts := cr.2 }
            db := db2 }
        else
          { result := .error ("Failed to create media item in Google Photos for item "
              ++ item.id ++ ".")
            stats := { authRequests := 1, byteHttpAttempts := bu.2, createHttpAttempts := cr.2 }
            db := db }

/-- The loop of `Uploader.processUploadQueue` (part_006 lines 41-52): each
fetched item is uploaded in turn; a thrown error is caught and only logged —
the status update in the catch block is commented out in the source, so the
database is left as the failed `uploadMediaItem` call left it. -/
def processItems (envOf : String → UploadEnv) : Db → List MediaRow → Db
  | db, [] => db
  | db, item :: rest => processItems envOf (uploadMediaItem db item (envOf item.id)).db rest

/-- `Uploader.processUploadQueue` (part_006 lines 30-56): fetch the pending
items once and upload them one after the other. -/
def processUploadQueue (db : Db) (envOf : String → UploadEnv) (batchSize : Nat) : Db :=
  processItems envOf db (getPendingMedia db batchSize)

/-! ### Scanner-driven insertion (MediaScanner.addItemsToDatabase) -/

/-- The fields of one item reported by the native scanner that reach the
database (the `SwiftMediaItem` interface). -/
structure ScanItem where
  localIdentifier : String
  mediaType : MediaType
  uti : Option String
  originalFilename : Option String
  sizeBytes : Option Nat
  creationDate : Option String
  pixelWidth : Option Nat
  pixelHeight : Option Nat
  durationSeconds : Option Nat
  codec : Option String
  isInCloud : Bool
deriving DecidableEq, Repr

/-- The `mediaData` record `MediaScanner.addItemsToDatabase` builds for a new
item: status `pending`, no hash, no Google Photos id, no error message. -/
def scannerNewItem (s : ScanItem) : NewMediaItem :=
  { id := s.localIdentifier
    media_type := s.mediaType
    mime_type := s.uti.getD "application/octet-stream"
    original_path := "urn:apple:photos:library:asset:" ++ s.localIdentifier
    local_copy_path := none
    original_name := s.originalFilename.getD "unknown_filename"
    size_bytes := s.sizeBytes
    creation_date := s.creationDate
    sha256_hash := none
    visual_hash := none
    pixel_size :=
      match s.pixelWidth, s.pixelHeight with
      | some w, some h => some (toString w ++ "x" ++ toString h)
      | _, _ => none
    duration_seconds := s.durationSeconds
    frame_rate := none
    codec := s.codec
    status := .pending
    last_attempt_at := none
    google_photos_id := none
    error_message := none
    is_in_icloud := s.isInCloud }

/-- `MediaScanner.addItemsToDatabase`: skip items whose id already exists,
then insert the rest through `addMediaBatch`; a batch error is caught and
leaves the database unchanged (the transaction rolled back). -/
def scanAddItems (db : Db) (items : List ScanItem) : Db :=
  let toAdd :=
    ((items.filter fun s => getMediaById db s.localIdentifier = none).map scannerNewItem)
  if toAdd = [] then db
  else (addMediaBatch db toAdd).2

/-! ### The operations the program drives

`main.ts` wires the components into two database-writing flows: the scan
command (scanner insertion) and the upload command (the upload loop over
fetched pending items).  `runOps` runs a sequence of such operations from a
database state. -/

/-- One program-driven operation: a scan pass, an export step recording a
staged copy, or an upload pass. -/
inductive ProgramOp where
  | scan (items : List ScanItem)
  | exportCopy (id : String) (localCopyPath : String)
  | upload (envOf : String → UploadEnv) (batchSize : Nat)

/-- Execute one operation. -/
def runOp (db : Db) : ProgramOp → Db
  | .scan items => scanAddItems db items
  | .exportCopy id p => (updateLocalCopyPath db id p).2
  | .upload envOf batchSize => processUploadQueue db envOf batchSize

/-- Execute a sequence of operations. -/
def runOps : Db → List ProgramOp → Db
  | db, [] => db
  | db, op :: rest => runOps (runOp db op) rest

/-- The Google Photos id the database stores for an item id. -/
def gidOf (db : Db) (id : String) : Option String :=
  (getMediaById db id).bind fun r => r.google_photos_id

/-- The invariant carried through every program-driven operation: ids are
unique (the PRIMARY KEY constraint) and a stored Google Photos id implies
status `uploaded`. -/
def GidInv (db : Db) : Prop :=
  (db.media_items.map fun r => r.id).Nodup ∧
  ∀ r ∈ db.media_items, r.google_photos_id ≠ none → r.status = .uploaded

/-- Specification predicate used by the invariant proofs: the new row list
arises from the old one by a per-row function that preserves ids, touches
only rows with the target id, and on those — when the row held no Google
Photos id — either stores no id or sets status `uploaded`. -/
def RowUpdateShape (old new : List MediaRow) (targetId : String) : Prop :=
  ∃ f : MediaRow → MediaRow,
    new = old.map f ∧
    (∀ r, (f r).id = r.id) ∧
    (∀ r, r.id ≠ targetId → f r = r) ∧
    (∀ r, r.id = targetId → r.google_photos_id = none →
      ((f r).google_photos_id = none ∨ (f r).status = .uploaded))

/-! ### AuthManager (part_008)

The credential state is the in-memory token record (`this.tokens`), the
credentials held by the `OAuth2Client` (`setCredentials({})` models as
`none`), and the on-disk token file (`none` when absent or deleted).  The
network refresh performed by `oauth2Client.getAccessToken()` is abstracted
by a `RefreshOutcome` supplied by the environment. -/

/-- A stored token record (`Credentials` from google-auth-library, the
fields the source reads). -/
structure OAuthTokens where
  access_token : Option String
  refresh_token : Option String
  scope : Option String
  expiry_date : Option Nat
deriving DecidableEq, Repr

/-- The credential state of one `AuthManager`. -/
structure AuthState where
  tokens : Option OAuthTokens
  clientCredentials : Option OAuthTokens
  tokenFile : Option OAuthTokens
deriving DecidableEq, Repr

/-- The state after `AuthManager.clearTokens` (part_008 lines 208-225):
in-memory tokens nulled, `setCredentials({})` on the client, token file
deleted. -/
def clearedAuthState : AuthState :=
  { tokens := none, clientCredentials := none, tokenFile := none }

/-- `AuthManager.clearTokens`. -/
def clearTokens (_ : AuthState) : AuthState := clearedAuthState

/-- `AuthManager.loadTokens` (part_008 lines 127-158): a missing file
returns false; a file without a refresh token or scope is discarded and
deleted; otherwise the tokens are loaded into memory and into the client. -/
def loadTokens (s : AuthState) : Bool × AuthState :=
  match s.tokenFile with
  | none => (false, { s with tokens := none })
  | some t =>
    if t.refresh_token = none ∨ t.scope = none then
      (false, { s with tokens := none, tokenFile := none })
    else
      (true, { s with tokens := some t, clientCredentials := some t })

/-- The outcome of the `oauth2Client.getAccessToken()` call inside
`AuthManager.getAccessToken`: the (possibly null) token plus the expiry the
refresh response carried, or a thrown refresh error. -/
inductive RefreshOutcome where
  | ok (token : Option String) (expiry : Option Nat)
  | error (msg : String)
deriving DecidableEq, Repr

/-- `AuthManager.getAccessToken` (part_008 lines 160-206): load tokens when
none are in memory, returning null when that fails; then ask the client for
an access token.  A changed token is written back to memory and to the token
file; a thrown refresh error clears every stored credential and rethrows
(lines 201-205). -/
def getAccessToken (s : AuthState) (refresh : RefreshOutcome) :
    Except String (Option String) × AuthState :=
  let load :=
    match s.tokens with
    | some _ => (true, s)
    | none => loadTokens s
  if ¬ load.1 then (.ok none, load.2)
  else
    match load.2.tokens with
    | none => (.ok none, load.2)
    | some t =>
      match refresh with
      | .error msg =>
        (.error ("Failed to refresh access token: " ++ msg), clearTokens load.2)
      | .ok newTok newExp =>
        match newTok with
        | none => (.ok none, load.2)
        | some nt =>
          if some nt ≠ t.access_token then
            let t2 : OAuthTokens :=
              { t with
                access_token := some nt
                expiry_date := match newExp with | some e => some e | none => t.expiry_date }
            (.ok (some nt), { load.2 with tokens := some t2, tokenFile := some t2 })
          else (.ok (some nt), load.2)

/-- Run `getAccessToken` once per refresh outcome, collecting the results. -/
def getAccessTokenRuns : AuthState → List RefreshOutcome →
    List (Except String (Option String)) × AuthState
  | s, [] => ([], s)
  | s, o :: rest =>
    let r := getAccessToken s o
    let rs := getAccessTokenRuns r.2 rest
    (r.1 :: rs.1, rs.2)

/-- `AuthManager.handleAuthCode` (part_008 lines 99-115): a successful token
exchange (a new authorization) stores the granted tokens in the client, in
memory and on disk, defaulting a missing scope; a failed exchange throws and
stores nothing. -/
def handleAuthCode (s : AuthState) (granted : Option OAuthTokens) :
    Except String Unit × AuthState :=
  match granted with
  | none => (.error "Failed to authenticate with Google.", s)
  | some t =>
    let t2 : OAuthTokens :=
      { t with
        scope :=
          match t.scope with
          | none => some "https://www.googleapis.com/auth/photoslibrary.appendonly"
          | some sc => some sc }
    (.ok (), { s with clientCredentials := some t2, tokens := some t2, tokenFile := some t2 })

/-! ### Concrete fixtures used by counterexamples and witnesses -/

/-- A media row that has already been committed (status `uploaded`). -/
def c1Row : MediaRow :=
  { id := "item-a", media_type := .photo, mime_type := "image/jpeg"
    original_path := "/photos/a.jpg", local_copy_path := some "/tmp/a.jpg"
    original_name := "a.jpg", size_bytes := some 100, creation_date := none
    sha256_hash := some "h1", visual_hash := none, pixel_size := none
    duration_seconds := none, frame_rate := none, codec := none
    status := .uploaded, retry_count := 0, last_attempt_at := none
    google_photos_id := some "g-a", error_message := none, is_in_icloud := false }

/-- A database holding the single committed row `c1Row`. -/
def c1Db : Db := ⟨[c1Row], []⟩

/-- A pending media row with a staged local copy, used by the uploader
scenarios. -/
def pendingRow : MediaRow :=
  { id := "item-b", media_type := .photo, mime_type := "image/jpeg"
    original_path := "urn:apple:photos:library:asset:item-b"
    local_copy_path := some "/tmp/b.jpg"
    original_name := "b.jpg", size_bytes := some 100, creation_date := none
    sha256_hash := some "h1", visual_hash := none, pixel_size := none
    duration_seconds := none, frame_rate := none, codec := none
    status := .pending, retry_count := 0, last_attempt_at := none
    google_photos_id := none, error_message := none, is_in_icloud := false }

/-- A second pending row that is byte-identical to `pendingRow` (same
`sha256_hash`). -/
def pendingRowTwin : MediaRow :=
  { pendingRow with
    id := "item-c"
    original_path := "urn:apple:photos:library:asset:item-c"
    local_copy_path := some "/tmp/c.jpg"
    original_name := "c.jpg" }

/-- An environment in which both upload phases succeed on the first attempt
and the creation result carries a media item id. -/
def successEnv : UploadEnv :=
  { accessToken := some "tok", fileExists := true, fileSize := 1024
    byteAttempts := [.ok "upload-token-1"]
    createAttempts := [.okResult
      { tokenMatches := true, statusCode := some 0, statusMessage := "OK",
        mediaItemId := some "g-new" }]
    now := "2025-01-02T00:00:00.000Z" }

/-- An environment whose first byte-upload attempt is refused with HTTP 401
while a second attempt would succeed: a retry of the phase, had one been
made, would have gone through. -/
def unauthorizedEnv : UploadEnv :=
  { successEnv with byteAttempts := [.httpError 401, .ok "upload-token-1"] }

/-- An environment whose byte upload fails with a non-retriable HTTP 400. -/
def badRequestEnv : UploadEnv :=
  { successEnv with byteAttempts := [.httpError 400] }

/-- An environment whose byte upload succeeds but whose media-item creation
is refused with HTTP 401 on every attempt `async-retry` makes: the first
one plus the three scheduled background retries. -/
def stale401CreateEnv : UploadEnv :=
  { successEnv with
    createAttempts := [.httpError 401, .httpError 401, .httpError 401, .httpError 401] }

/-- A jitter stream whose first draw is 1.5 and whose later draws are 1 —
all values `Math.random() + 1` can take. -/
def c7Jitter : Nat → ℚ := fun n => if n = 0 then 3 / 2 else 1

/-- An environment in which both phases succeed but the creation result
carries no media item id (`result.mediaItem?.id` absent). -/
def noIdSuccessEnv : UploadEnv :=
  { successEnv with
    createAttempts := [.okResult
      { tokenMatches := true, statusCode := some 0, statusMessage := "OK",
        mediaItemId := none }] }

/-- Database with one committed row and one pending row sharing the same
content fingerprint `h1`. -/
def dupDb : Db := ⟨[c1Row, pendingRow], []⟩

/-- Database with two pending rows sharing the same content fingerprint
(the same byte-identical file scanned twice). -/
def twinDb : Db := ⟨[pendingRow, pendingRowTwin], []⟩

/-- Database with a single pending row carrying no error message. -/
def pendingDb : Db := ⟨[pendingRow], []⟩

/-- A stored, loadable token record. -/
def c5Tokens : OAuthTokens :=
  { access_token := some "at-1", refresh_token := some "rt-1"
    scope := some "https://www.googleapis.com/auth/photoslibrary.appendonly"
    expiry_date := some 1000 }

/-- An authenticated credential state. -/
def c5State : AuthState :=
  { tokens := some c5Tokens, clientCredentials := some c5Tokens
    tokenFile := some c5Tokens }

/-- The item the scanner reports in the reachability counterexample. -/
def c2Scan : ScanItem :=
  { localIdentifier := "item-d", mediaType := .photo, uti := some "image/jpeg"
    originalFilename := some "d.jpg", sizeBytes := some 100, creationDate := none
    pixelWidth := none, pixelHeight := none, durationSeconds := none
    codec := none, isInCloud := false }

/-- The operation sequence of the reachability counterexample: scan one
item, stage it, then upload it with a creation result that carries no media
item id. -/
def c2Trace : List ProgramOp :=
  [.scan [c2Scan], .exportCopy "item-d" "/tmp/d.jpg",
   .upload (fun _ => noIdSuccessEnv) 5]

/-- An operation sequence whose upload succeeds with a media item id, so the
final state stores a Google Photos id. -/
def c2WitnessTrace : List ProgramOp :=
  [.scan [c2Scan], .exportCopy "item-d" "/tmp/d.jpg",
   .upload (fun _ => successEnv) 5]

end PhotoMigrator

namespace PhotoMigrator

/-! ## Theorems -/

/-- The written list of `updateMediaStatus` regardless of the returned
flag. -/
theorem updateMediaStatus_snd (db : Db) (id : String) (st : MediaStatus)
    (msg : Option String) (now : String) :
    (updateMediaStatus db id st msg now).2 =
      { db with
        media_items := db.media_items.map fun r =>
          if r.id = id then setStatusRow st now msg r else r } := by
  unfold updateMediaStatus
  split <;> rfl

/-- The written list of `updateGooglePhotosId` regardless of the returned
flag. -/
theorem updateGooglePhotosId_snd (db : Db) (id : String) (gid : String) :
    (updateGooglePhotosId db id gid).2 =
      { db with
        media_items := db.media_items.map fun r =>
          if r.id = id then { r with google_photos_id := some gid } else r } := by
  unfold updateGooglePhotosId
  split <;> rfl

/-- C1: refuted on the code.  `DatabaseManager.updateMediaStatus` takes no
expected prior status at all: on the database whose only row `item-a` has
current status `uploaded`, a transition that a compare-and-set with
`fromStatus = pending` would have to reject (return false, write nothing)
instead returns true and rewrites the row. -/
theorem updateMediaStatus_cas_counterexample :
    (getMediaById c1Db "item-a").map (fun r => r.status) = some .uploaded ∧
    MediaStatus.uploaded ≠ MediaStatus.pending ∧
    (updateMediaStatus c1Db "item-a" .failed none "2025-01-01T00:00:00.000Z").1 = true ∧
    (updateMediaStatus c1Db "item-a" .failed none "2025-01-01T00:00:00.000Z").2 ≠ c1Db := by
  refine ⟨rfl, by decide, rfl, ?_⟩
  decide

/-- C1 (amended): `updateMediaStatus` is an unconditional update keyed on
the id alone: when some row has the id it returns true and overwrites that
row with the new status whatever its current status was; it returns false
with no write only when no row carries the id. -/
theorem updateMediaStatus_unconditional (db : Db) (id : String) (st : MediaStatus)
    (msg : Option String) (now : String) :
    ((∀ r ∈ db.media_items, r.id ≠ id) →
      updateMediaStatus db id st msg now = (false, db)) ∧
    ((∃ r ∈ db.media_items, r.id = id) →
      (updateMediaStatus db id st msg now).1 = true ∧
      ∀ r' ∈ (updateMediaStatus db id st msg now).2.media_items,
        r'.id = id → r'.status = st) := by
  constructor
  · intro h
    have hany : db.media_items.any (fun r => r.id = id) = false := by
      simp only [List.any_eq_false, decide_eq_true_eq]
      exact h
    have hmap : (db.media_items.map fun r =>
        if r.id = id then setStatusRow st now msg r else r) = db.media_items := by
      conv_rhs => rw [← List.map_id db.media_items]
      exact List.map_congr_left fun r hr => by simp [h r hr]
    unfold updateMediaStatus
    rw [hany]
    simp [hmap]
  · intro h
    have hany : db.media_items.any (fun r => r.id = id) = true := by
      simp only [List.any_eq_true, decide_eq_true_eq]
      exact h
    constructor
    · unfold updateMediaStatus
      rw [hany]
      rfl
    · intro r' hr' hid
      rw [updateMediaStatus_snd] at hr'
      simp only [List.mem_map] at hr'
      obtain ⟨r, hr, hfr⟩ := hr'
      by_cases hcase : r.id = id
      · rw [if_pos hcase] at hfr
        rw [← hfr]
        rfl
      · rw [if_neg hcase] at hfr
        exact absurd (hfr ▸ hid) hcase

/-- C1 amended, witness at a concrete input: the committed row `item-a` is
present, and the update succeeds and rewrites its status. -/
theorem updateMediaStatus_unconditional_witness :
    (updateMediaStatus c1Db "item-a" .failed none "T").1 = true :=
  ((updateMediaStatus_unconditional c1Db "item-a" .failed none "T").2
    ⟨c1Row, by simp [c1Db], rfl⟩).1

/-- C10: on an existing id, `updateMediaStatus` returns true and writes
exactly the columns `status`, `last_attempt_at` and `error_message` of the
rows carrying that id — `error_message` becomes NULL when no message is
supplied and `last_attempt_at` becomes the current time — while every other
column of those rows, every other row, and the `batches` table are
unchanged. -/
theorem updateMediaStatus_frame (db : Db) (id : String) (st : MediaStatus)
    (msg : Option String) (now : String) (hex : ∃ r ∈ db.media_items, r.id = id) :
    (updateMediaStatus db id st msg now).1 = true ∧
    (updateMediaStatus db id st msg now).2.batches = db.batches ∧
    List.Forall₂ (fun (r r' : MediaRow) =>
        (r.id ≠ id → r' = r) ∧
        (r.id = id →
          r'.status = st ∧ r'.last_attempt_at = some now ∧
          (msg = none → r'.error_message = none) ∧
          r'.id = r.id ∧ r'.media_type = r.media_type ∧ r'.mime_type = r.mime_type ∧
          r'.original_path = r.original_path ∧ r'.local_copy_path = r.local_copy_path ∧
          r'.original_name = r.original_name ∧ r'.size_bytes = r.size_bytes ∧
          r'.creation_date = r.creation_date ∧ r'.sha256_hash = r.sha256_hash ∧
          r'.visual_hash = r.visual_hash ∧ r'.pixel_size = r.pixel_size ∧
          r'.duration_seconds = r.duration_seconds ∧ r'.frame_rate = r.frame_rate ∧
          r'.codec = r.codec ∧ r'.retry_count = r.retry_count ∧
          r'.google_photos_id = r.google_photos_id ∧ r'.is_in_icloud = r.is_in_icloud))
      db.media_items (updateMediaStatus db id st msg now).2.media_items := by
  have hany : db.media_items.any (fun r => r.id = id) = true := by
    simp only [List.any_eq_true, decide_eq_true_eq]
    exact hex
  refine ⟨by unfold updateMediaStatus; rw [hany]; rfl, ?_, ?_⟩
  · rw [updateMediaStatus_snd]
  · rw [updateMediaStatus_snd]
    show List.Forall₂ _ db.media_items (db.media_items.map _)
    rw [List.forall₂_map_right_iff, List.forall₂_same]
    intro r _
    by_cases hcase : r.id = id
    · rw [if_pos hcase]
      refine ⟨fun hne => absurd hcase hne, fun _ => ?_⟩
      refine ⟨rfl, rfl, fun hmsg => ?_, rfl, rfl, rfl, rfl, rfl, rfl, rfl, rfl, rfl,
        rfl, rfl, rfl, rfl, rfl, rfl, rfl, rfl⟩
      simp [setStatusRow, hmsg, jsStrOrNull]
    · rw [if_neg hcase]
      exact ⟨fun _ => rfl, fun heq => absurd heq hcase⟩

/-- C10 witness: the frame property applied to the concrete committed
database. -/
theorem updateMediaStatus_frame_witness :
    (updateMediaStatus c1Db "item-a" .failed none "T").2.batches = c1Db.batches :=
  (updateMediaStatus_frame c1Db "item-a" .failed none "T"
    ⟨c1Row, by simp [c1Db], rfl⟩).2.1

/-- Shape of the transaction loop of `addMediaBatch`: it either throws, or
appends exactly the inserted form of every item, pushing the ids in
order. -/
theorem addMediaBatchGo_spec :
    ∀ (items : List NewMediaItem) (db : Db) (ids : List String),
      (∃ e, addMediaBatchGo db ids items = .error e) ∨
      addMediaBatchGo db ids items =
        .ok (ids ++ items.map (fun m => m.id),
          { db with media_items := db.media_items ++ items.map insertedRow }) := by
  intro items
  induction items with
  | nil =>
    intro db ids
    right
    simp [addMediaBatchGo]
  | cons m rest ih =>
    intro db ids
    unfold addMediaBatchGo
    cases hins : insertMediaRow db m with
    | error e => exact .inl ⟨e, rfl⟩
    | ok db2 =>
      have hdb2 : db2 = { db with media_items := db.media_items ++ [insertedRow m] } := by
        unfold insertMediaRow at hins
        split at hins
        · exact absurd hins (by simp)
        · exact (Except.ok.injEq _ _ ▸ hins).symm ▸ rfl
      rcases ih db2 (ids ++ [m.id]) with ⟨e, he⟩ | hok
      · left
        exact ⟨e, by dsimp only; exact he⟩
      · right
        dsimp only
        rw [hok, hdb2]
        simp

/-- C9: `addMediaBatch` is atomic.  Every call either throws and returns
the database unchanged, or persists exactly the whole input list (in order,
with the ids reported back); no partial insertion is observable. -/
theorem addMediaBatch_atomic (db : Db) (items : List NewMediaItem) :
    (∃ e, addMediaBatch db items = (.error e, db)) ∨
    addMediaBatch db items =
      (.ok (items.map fun m => m.id),
        { db with media_items := db.media_items ++ items.map insertedRow }) := by
  unfold addMediaBatch
  by_cases hnil : items = []
  · subst hnil
    right
    simp
  · rw [if_neg hnil]
    rcases addMediaBatchGo_spec items db [] with ⟨e, he⟩ | hok
    · rw [he]
      exact .inl ⟨e, rfl⟩
    · rw [hok]
      right
      dsimp only
      simp

/-- The greedy accumulator never lets the running total pass the bound. -/
theorem planBatchGo_le (bound : Nat) :
    ∀ (l : List MediaRow) (acc : Nat), acc ≤ bound →
      acc + batchTotalBytes (planBatchGo bound acc l) ≤ bound := by
  intro l
  induction l with
  | nil => intro acc hacc; simpa [planBatchGo, batchTotalBytes] using hacc
  | cons r rest ih =>
    intro acc hacc
    unfold planBatchGo
    by_cases hif : acc + r.size_bytes.getD 0 ≤ bound
    · rw [if_pos hif]
      have := ih (acc + r.size_bytes.getD 0) hif
      simpa [batchTotalBytes, Nat.add_assoc] using this
    · rw [if_neg hif]
      exact ih acc hacc

/-- C4: the Batch Planner (modelled from the spec, see `planBatch`) never
proposes a batch whose total bytes exceed
`min(ceiling, freeSpace − safetyMargin)`, for every free-space estimate,
ceiling, safety margin and pending item set. -/
theorem planBatch_disk_bound (ceiling freeSpace safetyMargin : Nat)
    (pending : List MediaRow) :
    batchTotalBytes (planBatch ceiling freeSpace safetyMargin pending) ≤
      diskBound ceiling freeSpace safetyMargin := by
  have := planBatchGo_le (diskBound ceiling freeSpace safetyMargin)
    (sortPlanned pending) 0 (Nat.zero_le _)
  simpa [planBatch] using this

/-- Every delay is capped by the configured ceiling. -/
theorem retryDelay_le_max (cfg : RetryConfig) (n : Nat) :
    retryDelay cfg n ≤ cfg.maxTimeout :=
  min_le_right _ _

/-- Delays are monotone in the attempt index when the factor is at least
one. -/
theorem retryDelay_mono (cfg : RetryConfig) (hf : 1 ≤ cfg.factor) {n m : Nat}
    (h : n ≤ m) : retryDelay cfg n ≤ retryDelay cfg m := by
  unfold retryDelay
  exact min_le_min (Nat.mul_le_mul_left _ (Nat.pow_le_pow_right hf h)) le_rfl

/-- The first base delay is the configured minimum. -/
theorem retryDelay_zero (cfg : RetryConfig) (h1 : 1 ≤ cfg.minTimeout)
    (h : cfg.minTimeout ≤ cfg.maxTimeout) :
    retryDelay cfg 0 = cfg.minTimeout := by
  unfold retryDelay
  rw [pow_zero, Nat.mul_one, Nat.max_eq_left h1]
  exact min_eq_left h

/-- Below the cap, each base delay is the factor times the previous one. -/
theorem retryDelay_step (cfg : RetryConfig) (hf : 1 ≤ cfg.factor) (n : Nat)
    (h : max cfg.minTimeout 1 * cfg.factor ^ (n + 1) ≤ cfg.maxTimeout) :
    retryDelay cfg (n + 1) = cfg.factor * retryDelay cfg n := by
  have h1 : max cfg.minTimeout 1 * cfg.factor ^ n ≤
      max cfg.minTimeout 1 * cfg.factor ^ (n + 1) :=
    Nat.mul_le_mul_left _ (Nat.pow_le_pow_right hf (Nat.le_succ n))
  unfold retryDelay
  rw [min_eq_left h, min_eq_left (le_trans h1 h)]
  ring

/-- Rounding on the rationals is monotone. -/
theorem round_le_round_rat {x y : ℚ} (h : x ≤ y) : round x ≤ round y := by
  rw [round_eq, round_eq]
  exact Int.floor_le_floor (by linarith)

/-- A jittered delay lies between the base delay and twice it, and below
the cap, for any jitter draw in [1, 2). -/
theorem retryDelayRandomized_bounds (cfg : RetryConfig) (jitter : Nat → ℚ) (n : Nat)
    (hj1 : 1 ≤ jitter n) (hj2 : jitter n < 2) :
    (retryDelay cfg n : ℤ) ≤ retryDelayRandomized cfg jitter n ∧
    retryDelayRandomized cfg jitter n ≤ 2 * (retryDelay cfg n : ℤ) ∧
    retryDelayRandomized cfg jitter n ≤ (cfg.maxTimeout : ℤ) := by
  unfold retryDelay retryDelayRandomized
  set B : Nat := max cfg.minTimeout 1 * cfg.factor ^ n with hB
  set R : ℤ := round (jitter n * (B : ℚ)) with hR
  have hge : (B : ℤ) ≤ R := by
    rw [hR]
    have hx : (B : ℚ) ≤ jitter n * (B : ℚ) :=
      le_mul_of_one_le_left (by positivity) hj1
    have h2 := round_le_round_rat hx
    rwa [round_natCast] at h2
  have hle2 : R ≤ 2 * (B : ℤ) := by
    rw [hR]
    have hx : jitter n * (B : ℚ) ≤ ((2 * B : Nat) : ℚ) := by
      push_cast
      exact mul_le_mul_of_nonneg_right (le_of_lt hj2) (by positivity)
    have h2 := round_le_round_rat hx
    rw [round_natCast] at h2
    push_cast at h2
    exact h2
  refine ⟨?_, ?_, ?_⟩
  all_goals push_cast
  all_goals omega

/-- Jittered delays are non-decreasing for any jitter stream in [1, 2). -/
theorem retryDelayRandomized_mono (cfg : RetryConfig) (hf2 : cfg.factor = 2)
    (jitter : Nat → ℚ) (hj : ∀ n, 1 ≤ jitter n ∧ jitter n < 2) :
    ∀ n m, n ≤ m →
      retryDelayRandomized cfg jitter n ≤ retryDelayRandomized cfg jitter m := by
  have step : ∀ n, retryDelayRandomized cfg jitter n ≤
      retryDelayRandomized cfg jitter (n + 1) := by
    intro n
    unfold retryDelayRandomized
    set B : Nat := max cfg.minTimeout 1 * cfg.factor ^ n with hB
    have hBsucc : max cfg.minTimeout 1 * cfg.factor ^ (n + 1) = 2 * B := by
      rw [hB, hf2]
      ring
    have h1 : round (jitter n * (B : ℚ)) ≤ ((2 * B : Nat) : ℤ) := by
      have hx : jitter n * (B : ℚ) ≤ ((2 * B : Nat) : ℚ) := by
        push_cast
        exact mul_le_mul_of_nonneg_right (le_of_lt (hj n).2) (by positivity)
      have h2 := round_le_round_rat hx
      rwa [round_natCast] at h2
    have h3 : ((2 * B : Nat) : ℤ) ≤
        round (jitter (n + 1) * ((max cfg.minTimeout 1 * cfg.factor ^ (n + 1) : Nat) : ℚ)) := by
      rw [hBsucc]
      have hx : (((2 * B : Nat)) : ℚ) ≤ jitter (n + 1) * ((2 * B : Nat) : ℚ) :=
        le_mul_of_one_le_left (by positivity) (hj (n + 1)).1
      have h2 := round_le_round_rat hx
      rwa [round_natCast] at h2
    exact min_le_min (le_trans h1 h3) le_rfl
  exact fun n m h => monotone_nat_of_le_succ step h

/-- C7: refuted on the code.  `async-retry` defaults `randomize` to true
when the caller does not set it, and the source sets only `retries`,
`factor`, `minTimeout` and `maxTimeout`, so every delay carries an
independent jitter factor drawn from [1, 2).  With the admissible draws 1.5
then 1, the first delay is 1500 ms — not the 1000 ms minimum — and the
second is 2000 ms — not double the first: the delays neither start at the
minimum delay nor double at each step. -/
theorem backoff_jitter_counterexample :
    (∀ n, 1 ≤ c7Jitter n ∧ c7Jitter n < 2) ∧
    retryDelayRandomized byteUploadRetryConfig c7Jitter 0 = 1500 ∧
    (byteUploadRetryConfig.minTimeout : ℤ) = 1000 ∧
    retryDelayRandomized byteUploadRetryConfig c7Jitter 1 = 2000 ∧
    retryDelayRandomized byteUploadRetryConfig c7Jitter 1 ≠
      2 * retryDelayRandomized byteUploadRetryConfig c7Jitter 0 := by
  have h0 : retryDelayRandomized byteUploadRetryConfig c7Jitter 0 = 1500 := by
    unfold retryDelayRandomized c7Jitter byteUploadRetryConfig
    norm_num [round_eq]
  have h1 : retryDelayRandomized byteUploadRetryConfig c7Jitter 1 = 2000 := by
    unfold retryDelayRandomized c7Jitter byteUploadRetryConfig
    norm_num [round_eq]
  refine ⟨fun n => ?_, h0, rfl, h1, ?_⟩
  · unfold c7Jitter
    by_cases h : n = 0 <;> norm_num [h]
  · rw [h0, h1]
    decide

/-- C7 (amended): the delays the program sleeps are
`min(round(r_n * minTimeout * 2 ^ n), maxTimeout)` where each `r_n` is an
`async-retry` jitter draw from [1, 2) (`randomize` defaults to true).  The
jitter-free base curve starts at the configured minimum and doubles at each
step below the ceiling; the actual delays lie between the base curve and
twice it, never exceed the ceiling, and — as the claim concludes —
successive delays for the same item are non-decreasing up to the cap. -/
theorem uploader_backoff_jittered (cfg : RetryConfig)
    (hcfg : cfg = byteUploadRetryConfig ∨ cfg = createMediaItemRetryConfig)
    (jitter : Nat → ℚ) (hj : ∀ n, 1 ≤ jitter n ∧ jitter n < 2) :
    cfg.factor = 2 ∧
    retryDelay cfg 0 = cfg.minTimeout ∧
    (∀ n, retryDelay cfg n ≤ cfg.maxTimeout) ∧
    (∀ n, max cfg.minTimeout 1 * 2 ^ (n + 1) ≤ cfg.maxTimeout →
      retryDelay cfg (n + 1) = 2 * retryDelay cfg n) ∧
    (∀ n, (retryDelay cfg n : ℤ) ≤ retryDelayRandomized cfg jitter n ∧
      retryDelayRandomized cfg jitter n ≤ 2 * (retryDelay cfg n : ℤ) ∧
      retryDelayRandomized cfg jitter n ≤ (cfg.maxTimeout : ℤ)) ∧
    (∀ n m, n ≤ m →
      retryDelayRandomized cfg jitter n ≤ retryDelayRandomized cfg jitter m) := by
  have hf2 : cfg.factor = 2 := by
    rcases hcfg with h | h <;> (subst h; rfl)
  have hf : 1 ≤ cfg.factor := by rw [hf2]; decide
  have h1m : 1 ≤ cfg.minTimeout := by
    rcases hcfg with h | h <;> (subst h; decide)
  have hmm : cfg.minTimeout ≤ cfg.maxTimeout := by
    rcases hcfg with h | h <;> (subst h; decide)
  refine ⟨hf2, retryDelay_zero cfg h1m hmm, fun n => retryDelay_le_max cfg n,
    fun n h => ?_,
    fun n => retryDelayRandomized_bounds cfg jitter n (hj n).1 (hj n).2,
    retryDelayRandomized_mono cfg hf2 jitter hj⟩
  rw [← hf2] at h
  rw [retryDelay_step cfg hf n h, hf2]

/-- C7 amended, witness: the byte-upload configuration with a constant
admissible jitter draw of 1.5, instantiating the upper bound at the first
delay. -/
theorem uploader_backoff_jittered_witness :
    retryDelayRandomized byteUploadRetryConfig (fun _ => 3 / 2) 0 ≤
      2 * (retryDelay byteUploadRetryConfig 0 : ℤ) :=
  ((uploader_backoff_jittered byteUploadRetryConfig (.inl rfl) (fun _ => 3 / 2)
    (fun _ => ⟨by norm_num, by norm_num⟩)).2.2.2.2.1 0).2.1

/-- From the cleared credential state, a `getAccessToken` call fails (returns
null before reaching the network) and leaves the state cleared. -/
theorem getAccessToken_cleared (o : RefreshOutcome) :
    getAccessToken clearedAuthState o = (.ok none, clearedAuthState) := by
  simp [getAccessToken, loadTokens, clearedAuthState]

/-- C5: when the refresh inside `AuthManager.getAccessToken` fails, every
stored credential is cleared (in-memory tokens nulled, client credentials
reset, token file deleted) and the error is rethrown to the caller; from the
cleared state every subsequent `getAccessToken` call fails (yields no
credential) and leaves the state cleared, whatever the network would answer,
until `handleAuthCode` completes a new authorization and stores tokens
again. -/
theorem auth_refresh_failure_clears_and_blocks (s : AuthState) (t : OAuthTokens)
    (msg : String) (hts : s.tokens = some t) :
    (getAccessToken s (.error msg)).1 =
      .error ("Failed to refresh access token: " ++ msg) ∧
    (getAccessToken s (.error msg)).2 = clearedAuthState ∧
    (∀ outs : List RefreshOutcome,
      getAccessTokenRuns clearedAuthState outs =
        (outs.map fun _ => .ok none, clearedAuthState)) ∧
    (∀ granted : OAuthTokens,
      (handleAuthCode clearedAuthState (some granted)).1 = .ok () ∧
      (handleAuthCode clearedAuthState (some granted)).2.tokens ≠ none) := by
  refine ⟨?_, ?_, ?_, ?_⟩
  · simp [getAccessToken, hts, clearTokens]
  · simp [getAccessToken, hts, clearTokens]
  · intro outs
    induction outs with
    | nil => simp [getAccessTokenRuns]
    | cons o rest ih => simp [getAccessTokenRuns, getAccessToken_cleared, ih]
  · intro granted
    refine ⟨rfl, ?_⟩
    simp [handleAuthCode]

/-- C5 witness: a revoked-grant refresh failure from the authenticated state
clears everything. -/
theorem auth_refresh_failure_witness :
    (getAccessToken c5State (.error "invalid_grant")).2 = clearedAuthState :=
  (auth_refresh_failure_clears_and_blocks c5State c5Tokens "invalid_grant" rfl).2.1

/-- C6: refuted on the code.  With the first byte-upload attempt refused as
HTTP 401 — and a second attempt available that would succeed — the uploader
performs exactly one HTTP attempt (it bails out of the retry loop), requests
no fresh credential (`getAccessToken` was called exactly once, before the
phase), and propagates the error; the phase is not retried at all, against
the claimed invalidate-refresh-retry-once behaviour. -/
theorem upload_401_counterexample :
    (uploadMediaItem pendingDb pendingRow unauthorizedEnv).stats.byteHttpAttempts = 1 ∧
    (uploadMediaItem pendingDb pendingRow unauthorizedEnv).stats.authRequests = 1 ∧
    (uploadMediaItem pendingDb pendingRow unauthorizedEnv).result =
      .error "bailed during byte upload" ∧
    (uploadMediaItem pendingDb pendingRow unauthorizedEnv).db = pendingDb :=
  ⟨rfl, rfl, rfl, rfl⟩

/-- C6 (amended): on an authentication failure (HTTP 401) the uploader never
invalidates the cached credential nor requests a fresh one — the single
`getAccessToken` call happened before phase 1 — the database is untouched,
and the failure propagates to the caller.  In phase 1 the loop bails after
exactly one HTTP attempt (`bail` is followed by a `return`).  In phase 2
the bail settles the failure for the caller at the first 401, but it falls
through to a rethrow, so `async-retry` keeps retrying the phase with the
same stale credential up to the general 3-retry ceiling: four HTTP attempts
in all, none with a fresh credential. -/
theorem upload_401_bails_without_refresh (db : Db) (item : MediaRow)
    (env : UploadEnv) (tok p : String)
    (htok : env.accessToken = some tok)
    (hpath : jsStrOrNull item.local_copy_path = some p)
    (hp1 : p ≠ "") (hp2 : strStartsWith p "urn:" = false)
    (hfe : env.fileExists = true)
    (hsz : env.fileSize ≠ 0) :
    (∀ rest, env.byteAttempts = .httpError 401 :: rest →
      (uploadMediaItem db item env).result = .error "bailed during byte upload" ∧
      (uploadMediaItem db item env).stats.byteHttpAttempts = 1 ∧
      (uploadMediaItem db item env).stats.authRequests = 1 ∧
      (uploadMediaItem db item env).db = db) ∧
    (∀ t, env.byteAttempts = [.ok t] → t ≠ "" →
      env.createAttempts = [.httpError 401, .httpError 401, .httpError 401, .httpError 401] →
      (uploadMediaItem db item env).result =
        .error ("Failed to create media item in Google Photos for item "
          ++ item.id ++ ".") ∧
      (uploadMediaItem db item env).stats.createHttpAttempts = 4 ∧
      (uploadMediaItem db item env).stats.authRequests = 1 ∧
      (uploadMediaItem db item env).db = db) := by
  constructor
  · intro rest hbytes
    simp [uploadMediaItem, htok, hpath, hp1, hp2, hfe, hsz, hbytes,
      uploadFileBytes, runByteAttempts, classifyByteAttempt]
  · intro t hbytes ht hcreate
    simp [uploadMediaItem, htok, hpath, hp1, hp2, hfe, hsz, hbytes, ht, hcreate,
      uploadFileBytes, runByteAttempts, classifyByteAttempt,
      createMediaItem, runCreateAttempts, classifyCreateAttempt,
      createMediaItemRetryConfig, byteUploadRetryConfig]

/-- C6 amended, witness: the concrete stale-credential scenario — four
phase-2 HTTP attempts on a persistent 401, one credential request. -/
theorem upload_401_bails_witness :
    (uploadMediaItem pendingDb pendingRow stale401CreateEnv).stats.createHttpAttempts = 4 :=
  ((upload_401_bails_without_refresh pendingDb pendingRow stale401CreateEnv
      "tok" "/tmp/b.jpg" rfl rfl (by decide) rfl rfl (by decide)).2
    "upload-token-1" rfl (by decide) rfl).2.1

/-- C8: the code drops upload failures on the floor.  On a pending item
whose byte upload is refused with a non-retriable HTTP 400, the upload
throws, `processUploadQueue` catches the error, and — the status update in
its catch block being commented out — the database is completely unchanged:
the item keeps status `pending` and a NULL `error_message`, against the
documented rule that every failure updates `lastError`. -/
theorem failed_upload_leaves_record_unchanged :
    (uploadMediaItem pendingDb pendingRow badRequestEnv).result =
      .error "bailed during byte upload" ∧
    processUploadQueue pendingDb (fun _ => badRequestEnv) 5 = pendingDb ∧
    (getMediaById (processUploadQueue pendingDb (fun _ => badRequestEnv) 5)
      "item-b").map (fun r => (r.status, r.error_message)) =
      some (.pending, none) :=
  ⟨rfl, rfl, rfl⟩

/-- C3: refuted on the code.  `uploadMediaItem` never consults
`getMediaByHash`: on a database whose committed row `item-a` and pending row
`item-b` share the fingerprint `h1`, the pending item is uploaded anyway
(one HTTP byte-upload attempt is made) and ends `uploaded`; and a database
with two byte-identical pending items ends with two `uploaded` rows and no
`skipped` row, where the claim demands exactly one committed and one
skipped. -/
theorem duplicate_fingerprint_counterexample :
    getMediaByHash dupDb "h1" = some c1Row ∧
    c1Row.status = .uploaded ∧
    pendingRow.sha256_hash = some "h1" ∧
    (uploadMediaItem dupDb pendingRow successEnv).stats.byteHttpAttempts = 1 ∧
    ((processUploadQueue dupDb (fun _ => successEnv) 5).media_items.map
      fun r => r.status) = [.uploaded, .uploaded] ∧
    ((processUploadQueue twinDb (fun _ => successEnv) 5).media_items.map
      fun r => r.status) = [.uploaded, .uploaded] :=
  ⟨rfl, rfl, rfl, rfl, rfl, rfl⟩

/-- C3 (amended): the upload pipeline performs no fingerprint deduplication.
Even when an already-committed row carries the same `sha256_hash`, a pending
item is still uploaded: the byte-upload network call is performed, the call
succeeds, and the item ends with status `uploaded` — never `skipped` — so a
byte-identical file uploaded twice yields two `uploaded` items and no
`skipped` one. -/
theorem upload_ignores_duplicate_fingerprint (db : Db) (item : MediaRow)
    (env : UploadEnv) (tok p t g : String)
    (_hdup : ∃ r ∈ db.media_items, r.status = .uploaded ∧
      r.sha256_hash = item.sha256_hash)
    (htok : env.accessToken = some tok)
    (hpath : jsStrOrNull item.local_copy_path = some p)
    (hp1 : p ≠ "") (hp2 : strStartsWith p "urn:" = false)
    (hfe : env.fileExists = true)
    (hsz : env.fileSize ≠ 0)
    (hbytes : env.byteAttempts = [.ok t]) (ht : t ≠ "")
    (hcreate : env.createAttempts = [.okResult
      { tokenMatches := true, statusCode := some 0, statusMessage := "OK",
        mediaItemId := some g }]) :
    (uploadMediaItem db item env).result = .ok () ∧
    (uploadMediaItem db item env).stats.byteHttpAttempts = 1 ∧
    ∀ r' ∈ (uploadMediaItem db item env).db.media_items,
      r'.id = item.id → r'.status = .uploaded := by
  have hred : uploadMediaItem db item env =
      { result := .ok ()
        stats := { authRequests := 1, byteHttpAttempts := 1, createHttpAttempts := 1 }
        db := (updateGooglePhotosId
          (updateMediaStatus db item.id .uploaded none env.now).2 item.id g).2 } := by
    simp [uploadMediaItem, htok, hpath, hp1, hp2, hfe, hsz, hbytes, ht, hcreate,
      uploadFileBytes, runByteAttempts, classifyByteAttempt,
      createMediaItem, runCreateAttempts, classifyCreateAttempt]
  refine ⟨by rw [hred], by rw [hred], ?_⟩
  intro r' hr' hid
  rw [hred] at hr'
  rw [updateGooglePhotosId_snd] at hr'
  simp only [List.mem_map] at hr'
  obtain ⟨r1, hr1, hfr1⟩ := hr'
  rw [updateMediaStatus_snd] at hr1
  simp only [List.mem_map] at hr1
  obtain ⟨r0, _, hfr0⟩ := hr1
  by_cases h0 : r0.id = item.id
  · rw [if_pos h0] at hfr0
    have hid1 : r1.id = item.id := by rw [← hfr0]; exact h0
    rw [if_pos hid1] at hfr1
    rw [← hfr1, ← hfr0]
    rfl
  · rw [if_neg h0] at hfr0
    have h1 : ¬ r1.id = item.id := by rw [← hfr0]; exact h0
    rw [if_neg h1] at hfr1
    rw [← hfr1] at hid
    exact absurd hid h1

/-- C3 amended, witness: the concrete duplicate-fingerprint database. -/
theorem upload_ignores_duplicate_witness :
    (uploadMediaItem dupDb pendingRow successEnv).result = .ok () :=
  (upload_ignores_duplicate_fingerprint dupDb pendingRow successEnv
    "tok" "/tmp/b.jpg" "upload-token-1" "g-new"
    ⟨c1Row, by simp [dupDb], rfl, rfl⟩
    rfl rfl (by decide) rfl rfl (by decide) rfl (by decide) rfl).1

/-- Appending one operation to a run just applies it to the final state. -/
theorem runOps_append (ops : List ProgramOp) :
    ∀ (db : Db) (op : ProgramOp), runOps db (ops ++ [op]) = runOp (runOps db ops) op := by
  induction ops with
  | nil => intro db op; rfl
  | cons o rest ih => intro db op; exact ih (runOp db o) op

/-- With unique ids, `getMediaById` returns exactly the member row carrying
the id. -/
theorem getMediaById_eq_of_mem (l : List MediaRow)
    (hnodup : (l.map fun r => r.id).Nodup) (r : MediaRow) (hmem : r ∈ l)
    (i : String) (hid : r.id = i) :
    List.find? (fun x => x.id = i) l = some r := by
  induction l with
  | nil => cases hmem
  | cons x xs ih =>
    have hnodup2 : x.id ∉ (xs.map fun r => r.id) ∧ ((xs.map fun r => r.id)).Nodup := by
      rw [List.map_cons, List.nodup_cons] at hnodup
      exact hnodup
    rcases List.mem_cons.mp hmem with hx | hxs
    · subst hx
      exact List.find?_cons_of_pos _ (by simp [hid])
    · have hnx : ¬ (x.id = i) := fun hxi =>
        hnodup2.1 (by rw [hxi, ← hid]; exact List.mem_map_of_mem _ hxs)
      rw [List.find?_cons_of_neg _ (by simp [hnx])]
      exact ih hnodup2.2 hxs

/-- The identity update satisfies the row-update shape. -/
theorem rowUpdateShape_refl (l : List MediaRow) (tid : String) :
    RowUpdateShape l l tid :=
  ⟨id, (List.map_id l).symm, fun _ => rfl, fun _ _ => rfl, fun _ _ hg => .inl hg⟩

/-- A status rewrite on the target rows satisfies the shape: it never
touches `google_photos_id`. -/
theorem rowUpdateShape_setStatus (l : List MediaRow) (tid : String)
    (st : MediaStatus) (now : String) (msg : Option String) :
    RowUpdateShape l
      (l.map fun r => if r.id = tid then setStatusRow st now msg r else r) tid := by
  refine ⟨_, rfl, fun r => ?_, fun r hne => if_neg hne, fun r heq hg => ?_⟩
  · by_cases h : r.id = tid
    · rw [if_pos h]; rfl
    · rw [if_neg h]
  · rw [if_pos heq]
    exact .inl (by simpa [setStatusRow] using hg)

/-- The success-path composite (status `uploaded`, then the Google Photos
id) satisfies the shape: the target rows end with status `uploaded`. -/
theorem rowUpdateShape_uploadedWithGid (l : List MediaRow) (tid : String)
    (now : String) (g : String) :
    RowUpdateShape l
      ((l.map fun r => if r.id = tid then setStatusRow .uploaded now none r else r).map
        fun r => if r.id = tid then { r with google_photos_id := some g } else r) tid := by
  rw [List.map_map]
  refine ⟨_, rfl, fun r => ?_, fun r hne => ?_, fun r heq _ => ?_⟩
  · by_cases h : r.id = tid
    · simp only [Function.comp, if_pos h]
      have : (setStatusRow .uploaded now none r).id = r.id := rfl
      rw [if_pos (this.trans h)]
      exact h ▸ rfl
    · simp only [Function.comp, if_neg h, if_neg h]
  · simp only [Function.comp, if_neg hne, if_neg hne]
  · right
    simp only [Function.comp, if_pos heq]
    have hid2 : (setStatusRow .uploaded now none r).id = tid := heq
    rw [if_pos hid2]
    rfl

/-- A local-copy-path rewrite on the target rows satisfies the shape. -/
theorem rowUpdateShape_setLocalCopy (l : List MediaRow) (tid : String) (p : String) :
    RowUpdateShape l
      (l.map fun r => if r.id = tid then { r with local_copy_path := some p } else r)
      tid := by
  refine ⟨_, rfl, fun r => ?_, fun r hne => if_neg hne, fun r heq hg => ?_⟩
  · by_cases h : r.id = tid
    · rw [if_pos h]
    · rw [if_neg h]
  · rw [if_pos heq]
    exact .inl hg

/-- Whatever `uploadMediaItem` does, its database effect is a row update of
the processed item in the sense of `RowUpdateShape`, and the `batches` table
is untouched. -/
theorem uploadMediaItem_shape (db : Db) (item : MediaRow) (env : UploadEnv) :
    RowUpdateShape db.media_items (uploadMediaItem db item env).db.media_items item.id ∧
    (uploadMediaItem db item env).db.batches = db.batches := by
  unfold uploadMediaItem
  cases env.accessToken with
  | none => exact ⟨rowUpdateShape_refl _ _, rfl⟩
  | some tok =>
    dsimp only
    split
    · constructor
      · rw [updateMediaStatus_snd]
        exact rowUpdateShape_setStatus _ _ _ _ _
      · rw [updateMediaStatus_snd]
    · split
      · constructor
        · rw [updateMediaStatus_snd]
          exact rowUpdateShape_setStatus _ _ _ _ _
        · rw [updateMediaStatus_snd]
      · cases hbu : (uploadFileBytes env.fileSize env.byteAttempts).1 with
        | failed msg => exact ⟨rowUpdateShape_refl _ _, rfl⟩
        | token t =>
          dsimp only
          split
          · cases hmi : (createMediaItem env.createAttempts).1.mediaItemId with
            | none =>
              dsimp only
              constructor
              · rw [updateMediaStatus_snd]
                exact rowUpdateShape_setStatus _ _ _ _ _
              · rw [updateMediaStatus_snd]
            | some g =>
              dsimp only
              constructor
              · rw [updateGooglePhotosId_snd, updateMediaStatus_snd]
                exact rowUpdateShape_uploadedWithGid _ _ _ _
              · rw [updateGooglePhotosId_snd, updateMediaStatus_snd]
          · exact ⟨rowUpdateShape_refl _ _, rfl⟩

/-- A row update in the sense of `RowUpdateShape` preserves the invariant,
transfers the no-id property of untargeted ids, and keeps every stored
Google Photos id in place. -/
theorem gidInv_of_shape (db db2 : Db) (tid : String)
    (hshape : RowUpdateShape db.media_items db2.media_items tid)
    (hinv : GidInv db)
    (hnone : ∀ r ∈ db.media_items, r.id = tid → r.google_photos_id = none) :
    GidInv db2 ∧
    (∀ m : String, m ≠ tid →
      (∀ r ∈ db.media_items, r.id = m → r.google_photos_id = none) →
      ∀ r2 ∈ db2.media_items, r2.id = m → r2.google_photos_id = none) ∧
    (∀ r ∈ db.media_items, ∀ g, r.google_photos_id = some g →
      ∃ r2 ∈ db2.media_items, r2.id = r.id ∧ r2.google_photos_id = some g) := by
  obtain ⟨f, hmap, hid, hoff, hpos⟩ := hshape
  have hids : db2.media_items.map (fun r => r.id) = db.media_items.map fun r => r.id := by
    rw [hmap, List.map_map]
    exact List.map_congr_left fun r _ => hid r
  refine ⟨⟨hids ▸ hinv.1, ?_⟩, ?_, ?_⟩
  · intro r2 hr2 hg2
    rw [hmap] at hr2
    obtain ⟨r, hr, hfr⟩ := List.mem_map.mp hr2
    by_cases hcase : r.id = tid
    · rcases hpos r hcase (hnone r hr hcase) with h0 | h0
      · exact absurd (by rw [← hfr]; exact h0) hg2
      · rw [← hfr]
        exact h0
    · rw [hoff r hcase] at hfr
      rw [← hfr]
      exact hinv.2 r hr (by rw [hfr]; exact hg2)
  · intro m hm hmnone r2 hr2 hr2id
    rw [hmap] at hr2
    obtain ⟨r, hr, hfr⟩ := List.mem_map.mp hr2
    have hrid : r.id = m := by rw [← hid r, hfr, hr2id]
    have := hoff r (fun h => hm (h ▸ hrid.symm))
    rw [this] at hfr
    exact hfr ▸ hmnone r hr hrid
  · intro r hr g hg
    have hrid : r.id ≠ tid := fun h => by
      rw [hnone r hr h] at hg
      cases hg
    refine ⟨f r, hmap ▸ List.mem_map_of_mem f hr, ?_, ?_⟩
    · exact hid r
    · rw [hoff r hrid]
      exact hg

/-- The upload loop preserves the invariant and keeps every stored Google
Photos id, provided the processed items have pairwise distinct ids and
currently carry no id. -/
theorem processItems_preserves (envOf : String → UploadEnv) :
    ∀ (items : List MediaRow) (db : Db),
      GidInv db →
      (items.map fun m => m.id).Nodup →
      (∀ m ∈ items, ∀ r ∈ db.media_items, r.id = m.id → r.google_photos_id = none) →
      GidInv (processItems envOf db items) ∧
      (∀ r ∈ db.media_items, ∀ g, r.google_photos_id = some g →
        ∃ r2 ∈ (processItems envOf db items).media_items,
          r2.id = r.id ∧ r2.google_photos_id = some g) := by
  intro items
  induction items with
  | nil =>
    intro db hinv _ _
    exact ⟨hinv, fun r hr g hg => ⟨r, hr, rfl, hg⟩⟩
  | cons m rest ih =>
    intro db hinv hnodup hnone
    have hnodup2 : m.id ∉ (rest.map fun x => x.id) ∧ ((rest.map fun x => x.id)).Nodup := by
      rw [List.map_cons, List.nodup_cons] at hnodup
      exact hnodup
    have hshape := uploadMediaItem_shape db m (envOf m.id)
    have hstep := gidInv_of_shape db (uploadMediaItem db m (envOf m.id)).db m.id
      hshape.1 hinv (fun r hr hrid => hnone m (List.mem_cons_self m rest) r hr hrid)
    have hnone2 : ∀ m2 ∈ rest, ∀ r ∈ (uploadMediaItem db m (envOf m.id)).db.media_items,
        r.id = m2.id → r.google_photos_id = none := by
      intro m2 hm2 r hr hrid
      have hne : m2.id ≠ m.id := fun h =>
        hnodup2.1 (h ▸ List.mem_map_of_mem _ hm2)
      exact hstep.2.1 m2.id hne
        (fun r0 hr0 hr0id => hnone m2 (List.mem_cons_of_mem m hm2) r0 hr0 hr0id) r hr hrid
    have hrest := ih (uploadMediaItem db m (envOf m.id)).db hstep.1 hnodup2.2 hnone2
    refine ⟨hrest.1, ?_⟩
    intro r hr g hg
    obtain ⟨r1, hr1, hr1id, hr1g⟩ := hstep.2.2 r hr g hg
    obtain ⟨r2, hr2, hr2id, hr2g⟩ := hrest.2 r1 hr1 g hr1g
    exact ⟨r2, hr2, hr2id.trans hr1id, hr2g⟩

/-- A successful run of the insert transaction keeps the ids unique. -/
theorem addMediaBatchGo_nodup :
    ∀ (items : List NewMediaItem) (db : Db) (ids : List String)
      (out : List String × Db),
      addMediaBatchGo db ids items = .ok out →
      (db.media_items.map fun r => r.id).Nodup →
      (out.2.media_items.map fun r => r.id).Nodup := by
  intro items
  induction items with
  | nil =>
    intro db ids out hrun hnodup
    cases hrun
    exact hnodup
  | cons m rest ih =>
    intro db ids out hrun hnodup
    unfold addMediaBatchGo at hrun
    cases hins : insertMediaRow db m with
    | error e => rw [hins] at hrun; cases hrun
    | ok db2 =>
      rw [hins] at hrun
      have hnotin : m.id ∉ db.media_items.map fun r => r.id := by
        intro hin
        obtain ⟨r, hr, hrid⟩ := List.mem_map.mp hin
        have hany : (db.media_items.any fun r => r.id = m.id) = true :=
          List.any_eq_true.mpr ⟨r, hr, by simp [hrid]⟩
        unfold insertMediaRow at hins
        rw [if_pos hany] at hins
        cases hins
      have hdb2 : db2 = { db with media_items := db.media_items ++ [insertedRow m] } := by
        unfold insertMediaRow at hins
        split at hins
        · cases hins
        · exact (Except.ok.injEq _ _ ▸ hins).symm ▸ rfl
      refine ih db2 (ids ++ [m.id]) out hrun ?_
      rw [hdb2]
      simp only [List.map_append, List.map_cons, List.map_nil]
      rw [List.nodup_append]
      refine ⟨hnodup, List.nodup_singleton _, ?_⟩
      intro a ha hb
      rw [List.mem_singleton] at hb
      subst hb
      exact hnotin ha

/-- The scanner insertion step preserves the invariant and keeps every
existing row in place. -/
theorem scanAddItems_preserves (db : Db) (items : List ScanItem) (hinv : GidInv db) :
    GidInv (scanAddItems db items) ∧
    ∀ r ∈ db.media_items, r ∈ (scanAddItems db items).media_items := by
  have key : ∀ toAdd : List NewMediaItem,
      (∀ m ∈ toAdd, ∃ s : ScanItem, m = scannerNewItem s) →
      GidInv (addMediaBatch db toAdd).2 ∧
      ∀ r ∈ db.media_items, r ∈ (addMediaBatch db toAdd).2.media_items := by
    intro toAdd hscan
    unfold addMediaBatch
    split
    · exact ⟨hinv, fun r hr => hr⟩
    · cases hgo : addMediaBatchGo db [] toAdd with
      | error e => exact ⟨hinv, fun r hr => hr⟩
      | ok out =>
        obtain ⟨ids2, db2⟩ := out
        dsimp only
        have hnodup := addMediaBatchGo_nodup toAdd db [] (ids2, db2) hgo hinv.1
        have hshape : db2 = { db with
            media_items := db.media_items ++ toAdd.map insertedRow } := by
          rcases addMediaBatchGo_spec toAdd db [] with ⟨e, he⟩ | hok
          · rw [he] at hgo; cases hgo
          · rw [hok] at hgo
            cases hgo
            rfl
        refine ⟨⟨hnodup, ?_⟩, ?_⟩
        · intro r hr hg
          rw [hshape] at hr
          rcases List.mem_append.mp hr with hl | hrt
          · exact hinv.2 r hl hg
          · obtain ⟨m, hm, hmr⟩ := List.mem_map.mp hrt
            obtain ⟨s, hsm⟩ := hscan m hm
            exfalso
            apply hg
            rw [← hmr, hsm]
            rfl
        · intro r hr
          rw [hshape]
          exact List.mem_append_left _ hr
  unfold scanAddItems
  dsimp only
  split
  · exact ⟨hinv, fun r hr => hr⟩
  · exact key _ fun m hm => by
      obtain ⟨s, _, hsm⟩ := List.mem_map.mp hm
      exact ⟨s, hsm.symm⟩

/-- A per-row map that keeps the id, the Google Photos id and the status of
every row preserves the invariant and every stored Google Photos id. -/
theorem gidInv_map_preserving (db : Db) (f : MediaRow → MediaRow)
    (hid : ∀ r, (f r).id = r.id)
    (hg : ∀ r, (f r).google_photos_id = r.google_photos_id)
    (hst : ∀ r, (f r).status = r.status) (hinv : GidInv db) :
    GidInv { db with media_items := db.media_items.map f } ∧
    (∀ r ∈ db.media_items, ∀ g, r.google_photos_id = some g →
      ∃ r2 ∈ db.media_items.map f, r2.id = r.id ∧ r2.google_photos_id = some g) := by
  refine ⟨⟨?_, ?_⟩, ?_⟩
  · show ((db.media_items.map f).map fun r => r.id).Nodup
    rw [List.map_map]
    have heq : (db.media_items.map ((fun r => r.id) ∘ f)) = db.media_items.map fun r => r.id :=
      List.map_congr_left fun r _ => hid r
    rw [heq]
    exact hinv.1
  · intro r2 hr2 hgid
    obtain ⟨r, hr, hfr⟩ := List.mem_map.mp hr2
    rw [← hfr, hst r]
    exact hinv.2 r hr (by rw [← hfr, hg r] at hgid; exact hgid)
  · intro r hr g hgid
    exact ⟨f r, List.mem_map_of_mem f hr, hid r, (hg r).trans hgid⟩

/-- Every program-driven operation preserves the invariant and keeps every
stored Google Photos id in place. -/
theorem runOp_preserves (db : Db) (op : ProgramOp) (hinv : GidInv db) :
    GidInv (runOp db op) ∧
    (∀ r ∈ db.media_items, ∀ g, r.google_photos_id = some g →
      ∃ r2 ∈ (runOp db op).media_items, r2.id = r.id ∧ r2.google_photos_id = some g) := by
  cases op with
  | scan items =>
    have h := scanAddItems_preserves db items hinv
    exact ⟨h.1, fun r hr g hg => ⟨r, h.2 r hr, rfl, hg⟩⟩
  | exportCopy id p =>
    have hsnd : (updateLocalCopyPath db id p).2 = { db with
        media_items := db.media_items.map fun r =>
          if r.id = id then { r with local_copy_path := some p } else r } := by
      unfold updateLocalCopyPath
      split <;> rfl
    have h := gidInv_map_preserving db
      (fun r => if r.id = id then { r with local_copy_path := some p } else r)
      (fun r => by by_cases h : r.id = id <;> simp [h])
      (fun r => by by_cases h : r.id = id <;> simp [h])
      (fun r => by by_cases h : r.id = id <;> simp [h]) hinv
    constructor
    · show GidInv (updateLocalCopyPath db id p).2
      rw [hsnd]
      exact h.1
    · intro r hr g hg
      show ∃ r2 ∈ (updateLocalCopyPath db id p).2.media_items, _
      rw [hsnd]
      exact h.2 r hr g hg
  | upload envOf batchSize =>
    have hsub : (getPendingMedia db batchSize).Sublist db.media_items :=
      (List.take_sublist _ _).trans (List.filter_sublist _)
    have hnodup : ((getPendingMedia db batchSize).map fun m => m.id).Nodup :=
      hinv.1.sublist (hsub.map _)
    have hnone : ∀ m ∈ getPendingMedia db batchSize, ∀ r ∈ db.media_items,
        r.id = m.id → r.google_photos_id = none := by
      intro m hm r hr hrid
      have hm2 : m ∈ db.media_items.filter fun r => r.status = .pending :=
        List.mem_of_mem_take hm
      have hm3 := List.mem_filter.mp hm2
      have hmp : m.status = .pending := by simpa using hm3.2
      have hreq : r = m := List.inj_on_of_nodup_map hinv.1 hr hm3.1 hrid
      cases hg : r.google_photos_id with
      | none => rfl
      | some g =>
        have hup : r.status = .uploaded := hinv.2 r hr (by simp [hg])
        rw [hreq, hmp] at hup
        cases hup
    exact processItems_preserves envOf (getPendingMedia db batchSize) db hinv hnodup hnone

/-- Whole runs preserve the invariant. -/
theorem runOps_preserves (ops : List ProgramOp) :
    ∀ db : Db, GidInv db → GidInv (runOps db ops) := by
  induction ops with
  | nil => intro db h; exact h
  | cons op rest ih => intro db h; exact ih (runOp db op) (runOp_preserves db op h).1

/-- The empty database satisfies the invariant. -/
theorem gidInv_emptyDb : GidInv emptyDb :=
  ⟨List.nodup_nil, fun r hr => absurd hr (List.not_mem_nil r)⟩

/-- C2: refuted on the code.  The success path of `uploadMediaItem` stores
the Google Photos id only when the creation result carries one (part_006
lines 109-111): after scanning, staging and uploading one item whose
creation result has `success` but no `mediaItem.id`, the reachable state
holds a row with status `uploaded` and a NULL `google_photos_id`, so the
claimed iff between a non-null remote id and the committed status fails. -/
theorem remote_id_iff_counterexample :
    ((runOps emptyDb c2Trace).media_items.map fun r =>
      (r.id, r.status, r.google_photos_id)) = [("item-d", .uploaded, none)] ∧
    ¬ (∀ r ∈ (runOps emptyDb c2Trace).media_items,
        (r.google_photos_id ≠ none ↔ r.status = .uploaded)) := by
  refine ⟨by rfl, by decide⟩

/-- C2 (amended): in every state reachable by the program-driven operations
(scan, export, upload) from the empty database, a non-null
`google_photos_id` implies status `uploaded` — the converse direction of the
claimed iff fails, see the counterexample — and a stored remote id is never
changed by a further operation (set at most once). -/
theorem remote_id_implies_uploaded_and_stable (ops : List ProgramOp) :
    (∀ r ∈ (runOps emptyDb ops).media_items,
      r.google_photos_id ≠ none → r.status = .uploaded) ∧
    (∀ (op : ProgramOp) (i g : String),
      gidOf (runOps emptyDb ops) i = some g →
      gidOf (runOps emptyDb (ops ++ [op])) i = some g) := by
  have hinv : GidInv (runOps emptyDb ops) := runOps_preserves ops emptyDb gidInv_emptyDb
  refine ⟨hinv.2, ?_⟩
  intro op i g hg
  rw [runOps_append ops emptyDb op]
  cases hfind : getMediaById (runOps emptyDb ops) i with
  | none => rw [gidOf, hfind] at hg; cases hg
  | some r =>
    have hg2 : r.google_photos_id = some g := by
      rw [gidOf, hfind] at hg
      exact hg
    have hrmem : r ∈ (runOps emptyDb ops).media_items :=
      List.mem_of_find?_eq_some hfind
    have hrid : r.id = i := by
      have := List.find?_some hfind
      simpa using this
    obtain ⟨r2, hr2mem, hr2id, hr2g⟩ :=
      (runOp_preserves (runOps emptyDb ops) op hinv).2 r hrmem g hg2
    have hinv2 : GidInv (runOp (runOps emptyDb ops) op) :=
      (runOp_preserves (runOps emptyDb ops) op hinv).1
    have hfind2 : getMediaById (runOp (runOps emptyDb ops) op) i = some r2 :=
      getMediaById_eq_of_mem _ hinv2.1 r2 hr2mem i (hr2id.trans hrid)
    rw [gidOf, hfind2]
    exact hr2g

/-- C2 amended, witness: a run that stores a remote id, with the id intact
after one more operation. -/
theorem remote_id_stable_witness :
    gidOf (runOps emptyDb (c2WitnessTrace ++ [ProgramOp.exportCopy "other" "/tmp/e.jpg"]))
      "item-d" = some "g-new" :=
  (remote_id_implies_uploaded_and_stable c2WitnessTrace).2
    (.exportCopy "other" "/tmp/e.jpg") "item-d" "g-new" (by rfl)

end PhotoMigrator
